import Mathlib

/-!
Shallow embedding of the grid-x/modbus client core (framers, TCP transport
recovery classification, RTU incremental parser, serial timing) and proofs of
the specification's claims about it.

Bytes are modelled as `Nat` values; wherever the Go source truncates to a
machine width (`byte`, `uint16`, `uint32`) the model applies `% 256`,
`% 65536` or `% 4294967296` explicitly.  Byte streams are `List Nat`.
-/

namespace Modbus

/-- A protocol data unit: function code plus payload, as in `modbus.go`. -/
structure ProtocolDataUnit where
  FunctionCode : Nat
  Data : List Nat
deriving DecidableEq, Repr

/-- `binary.BigEndian.Uint16(b)`: big-endian 16-bit read of the first two
bytes of a stream (bytes are `< 256` on every stream the code produces). -/
def beUint16 (b : List Nat) : Nat :=
  b.getD 0 0 * 256 + b.getD 1 0

/-- `binary.BigEndian.PutUint16`: the two big-endian bytes of a 16-bit value
(callers pass values already reduced `% 65536`). -/
def putUint16 (v : Nat) : List Nat :=
  [v / 256, v % 256]

/-! ## MBAP (TCP) packager, from `tcpclient.go` -/

/-- `tcpPackager`: 32-bit transaction counter plus slave id. -/
structure tcpPackager where
  transactionID : Nat
  SlaveID : Nat
deriving DecidableEq, Repr

/-- `tcpPackager.Encode`: atomically increments the 32-bit counter, then
writes tx id (low 16 bits), protocol id 0, length `2 + |data|`, unit id,
function code and data.  Returns the updated packager and the ADU. -/
def tcpEncode (mb : tcpPackager) (pdu : ProtocolDataUnit) : tcpPackager × List Nat :=
  let transactionID := (mb.transactionID + 1) % 4294967296
  let length := (1 + 1 + pdu.Data.length) % 65536
  ({ mb with transactionID := transactionID },
    putUint16 (transactionID % 65536) ++ putUint16 0 ++ putUint16 length
      ++ [mb.SlaveID] ++ [pdu.FunctionCode] ++ pdu.Data)

/-- `tcpPackager.Decode`: reads the length field at offset 4, requires
`pduLength > 0` and `pduLength == int(length-1)` (uint16 wrap on `length-1`),
then returns function code `adu[7]` and data `adu[8:]`. -/
def tcpDecode (adu : List Nat) : Except String ProtocolDataUnit :=
  let length := beUint16 (adu.drop 4)
  if adu.length ≤ 7 then
    .error "modbus: length in response does not match pdu data length"
  else if adu.length - 7 ≠ (length + 65535) % 65536 then
    .error "modbus: length in response does not match pdu data length"
  else
    .ok { FunctionCode := adu.getD 7 0, Data := adu.drop 8 }

-- sanity: spec seed test 1 (slave 0, counter starts at 0)
example :
    (tcpEncode ⟨0, 0⟩ ⟨3, [0, 4, 0, 3]⟩).2 =
      [0, 1, 0, 0, 0, 6, 0, 3, 0, 4, 0, 3] := by decide

example :
    tcpDecode [0, 1, 0, 0, 0, 6, 17, 3, 0, 120, 0, 3] =
      .ok ⟨3, [0, 120, 0, 3]⟩ := rfl

/-! ## TCP transporter, from `tcpclient.go` -/

/-- Errors raised while reading a TCP response, as distinct Go types:
`ErrTCPHeaderLength`, `errTransactionIDMismatch` (with `got`/`expected`),
the `fmt.Errorf` protocol-id / unit-id mismatches, and I/O failures. -/
inductive TCPError where
  | headerLength (length : Nat)
  | txMismatch (got expected : Nat)
  | protoMismatch (got expected : Nat)
  | unitMismatch (got expected : Nat)
  | ioError
deriving DecidableEq, Repr

/-- `verify`: compares transaction id (bytes 0..1), protocol id (bytes 2..3)
and unit id (byte 6) of request and response, in that order. -/
def verify (aduRequest aduResponse : List Nat) : Except TCPError Unit :=
  let responseTx := beUint16 aduResponse
  let requestTx := beUint16 aduRequest
  if responseTx ≠ requestTx then
    .error (.txMismatch responseTx requestTx)
  else
    let responseProto := beUint16 (aduResponse.drop 2)
    let requestProto := beUint16 (aduRequest.drop 2)
    if responseProto ≠ requestProto then
      .error (.protoMismatch responseProto requestProto)
    else if aduResponse.getD 6 0 ≠ aduRequest.getD 6 0 then
      .error (.unitMismatch (aduResponse.getD 6 0) (aduRequest.getD 6 0))
    else
      .ok ()

/-- Outcome of `tcpTransporter.processResponse` on one inbound frame:
the result, the number of body bytes consumed by `io.ReadFull` for the
frame, and the connection stream after the call (`flush` performs one
non-blocking read of up to `tcpMaxLength = 260` bytes into a scratch
buffer, so in the error branches it drains up to 260 pending bytes). -/
structure ProcessOut where
  result : Except TCPError (List Nat)
  bodyRead : Nat
  remaining : List Nat
deriving Repr

/-- `tcpTransporter.processResponse`: reads the length field at offset 4 of
the 7-byte header; if it is 0 or greater than `tcpMaxLength - (tcpHeaderSize
- 1) = 254` it flushes and returns `ErrTCPHeaderLength`; otherwise it reads
`length - 1` further bytes and returns `header ++ body`. -/
def processResponse (header stream : List Nat) : ProcessOut :=
  let length := beUint16 (header.drop 4)
  if length ≤ 0 then
    { result := .error (.headerLength length), bodyRead := 0,
      remaining := stream.drop 260 }
  else if 254 < length then
    { result := .error (.headerLength length), bodyRead := 0,
      remaining := stream.drop 260 }
  else if stream.length < length - 1 then
    { result := .error .ioError, bodyRead := stream.length, remaining := [] }
  else
    { result := .ok (header.take 7 ++ stream.take (length - 1)),
      bodyRead := length - 1, remaining := stream.drop (length - 1) }

/-- What one iteration of the `readResponse` loop in `tcpclient.go` decides
to do with a frame that failed `processResponse` or `verify`. -/
inductive ReadDecision where
  /-- `continue`: re-read the next inbound frame on the same connection,
  without sending another request. -/
  | rereadSameConn
  /-- return `readResultRetry`: `Send` loops and resends the request. -/
  | returnRetry
  /-- return with `res = readResultDone` and the error: surface it. -/
  | returnFail
deriving DecidableEq, Repr

/-- The error classification of `tcpTransporter.readResponse`
(`tcpclient.go` lines 592-629): after the recovery deadline the error is
surfaced; `ErrTCPHeaderLength` retries when `LinkRecoveryTimeout > 0`;
a transaction-id mismatch whose `got` lies strictly between the last
successful and last attempted tx ids (or, on counter wrap
`lastAttempted < lastSuccessful`, above the last successful or below the
last attempted) re-reads on the same connection; any other mismatch retries
when `ProtocolRecoveryTimeout > 0`. -/
def classifyReadError (e : TCPError) (deadlineReached : Bool)
    (linkRecoveryPos protocolRecoveryPos : Bool)
    (lastSuccessful lastAttempted : Nat) : ReadDecision :=
  if deadlineReached then .returnFail
  else
    match e with
    | .headerLength _ =>
        if linkRecoveryPos then .returnRetry else .returnFail
    | .txMismatch got _ =>
        if (lastSuccessful < got ∧ got < lastAttempted) ∨
            (lastAttempted < lastSuccessful ∧
              (lastSuccessful < got ∨ got < lastAttempted)) then
          .rereadSameConn
        else if protocolRecoveryPos then .returnRetry
        else .returnFail
    | _ =>
        if protocolRecoveryPos then .returnRetry else .returnFail

/-- The spec's tx-id window `(lastSuccessful, lastAttempted]`, with the wrap
case `lastAttempted < lastSuccessful` read as
`(lastSuccessful, 0xFFFF] ∪ [0, lastAttempted)`.  Stated from the spec's
words, to be compared with `classifyReadError`. -/
def specTxWindow (lastSuccessful lastAttempted got : Nat) : Bool :=
  if lastAttempted < lastSuccessful then
    decide (lastSuccessful < got) || decide (got < lastAttempted)
  else
    decide (lastSuccessful < got) && decide (got ≤ lastAttempted)

/-! ## RTU, from `rtuclient.go` -/

/-- One shift round of the CRC-16 accumulator: shift right, xor the
polynomial 0xA001 when the dropped bit was set. -/
def crcRound (v : Nat) : Nat :=
  if v % 2 = 1 then (v / 2) ^^^ 0xA001 else v / 2

/-- Eight CRC shift rounds (one input byte). -/
def crcRounds : Nat → Nat → Nat
  | 0, v => v
  | k + 1, v => crcRounds k (crcRound v)

/-- Modelled from the spec: CRC-16 (Modbus), reflected, polynomial 0xA001,
initial value 0xFFFF, fed one byte at a time (`crc.go` is not under
`src/`; `rtuclient.go` only calls `reset`, `pushBytes` and `value`). -/
def crc16 (bytes : List Nat) : Nat :=
  bytes.foldl (fun acc b => crcRounds 8 (acc ^^^ (b % 256))) 0xFFFF

set_option maxRecDepth 4096

-- sanity: canonical Modbus CRC vector (wire bytes 0x76 0x87, low first)
example : crc16 [0x11, 0x03, 0x00, 0x6B, 0x00, 0x03] = 0x8776 := by decide

/-- `rtuPackager.Encode`: rejects frames longer than `rtuMaxSize = 256`,
then emits slave id, function code, data and the CRC-16 over everything
before it, low byte first. -/
def rtuEncode (slaveID : Nat) (pdu : ProtocolDataUnit) : Except String (List Nat) :=
  let length := pdu.Data.length + 4
  if 256 < length then
    .error "modbus: length of data must not be bigger than rtuMaxSize"
  else
    let body := slaveID :: pdu.FunctionCode :: pdu.Data
    let checksum := crc16 body
    .ok (body ++ [checksum % 256, checksum / 256 % 256])

/-- `rtuPackager.Decode`: recomputes the CRC-16 over `adu[0:len-2]`,
compares it with `uint16(adu[len-1])<<8 | uint16(adu[len-2])`, then returns
function code `adu[1]` and data `adu[2:len-2]`. -/
def rtuDecode (adu : List Nat) : Except String ProtocolDataUnit :=
  let length := adu.length
  let expected := crc16 (adu.take (length - 2))
  let checksum := adu.getD (length - 1) 0 * 256 + adu.getD (length - 2) 0
  if checksum ≠ expected then
    .error "modbus: response crc does not match expected"
  else
    .ok { FunctionCode := adu.getD 1 0, Data := (adu.drop 2).take (length - 4) }

/-- Errors of `readIncrementally` (`rtuclient.go`): a read past the end of
the stream, an unhandled function code, or the distinct
`InvalidLengthError` carrying the offending byte-count byte. -/
inductive RtuReadError where
  | ioError
  | unhandledFunctionCode (fc : Nat)
  | invalidLength (length : Nat)
deriving DecidableEq, Repr

/-- The states of the `readIncrementally` state machine. -/
inductive RtuParseState where
  | slaveID
  | functionCode
  | readLength
  | readPayload
  | crc
deriving DecidableEq, Repr

/-- One-byte-at-a-time response parser `readIncrementally`
(`rtuclient.go` lines 162-264), recursion over the remaining input stream.
`data` is the prefix of the 256-byte buffer written so far, `toRead` the
pending payload-byte count, `crcCount` the CRC bytes consumed.  The
real-time deadline bookkeeping (`delay`, `deadline`) is I/O timing and is
not part of the byte-level model; an exhausted stream is the read error. -/
def readIncr (slaveID functionCode : Nat) : List Nat → RtuParseState →
    List Nat → Nat → Nat → Except RtuReadError (List Nat)
  | [], _, _, _, _ => .error .ioError
  | b :: rest, state, data, toRead, crcCount =>
    match state with
    | .slaveID =>
        if b = slaveID then
          readIncr slaveID functionCode rest .functionCode (data ++ [b]) toRead crcCount
        else
          readIncr slaveID functionCode rest .slaveID data toRead crcCount
    | .functionCode =>
        if b = functionCode then
          if functionCode = 0x02 ∨ functionCode = 0x01 ∨ functionCode = 0x03 ∨
              functionCode = 0x04 ∨ functionCode = 0x17 ∨ functionCode = 0x18 then
            readIncr slaveID functionCode rest .readLength (data ++ [b]) toRead crcCount
          else if functionCode = 0x05 ∨ functionCode = 0x06 ∨
              functionCode = 0x10 ∨ functionCode = 0x0F then
            readIncr slaveID functionCode rest .readPayload (data ++ [b]) 4 crcCount
          else if functionCode = 0x16 then
            readIncr slaveID functionCode rest .readPayload (data ++ [b]) 6 crcCount
          else
            .error (.unhandledFunctionCode functionCode)
        else if b = (functionCode + 0x80) % 256 then
          readIncr slaveID functionCode rest .readPayload (data ++ [b]) 1 crcCount
        else
          readIncr slaveID functionCode rest .functionCode data toRead crcCount
    | .readLength =>
        if 251 < b ∨ b = 0 then
          .error (.invalidLength b)
        else
          readIncr slaveID functionCode rest .readPayload (data ++ [b]) b crcCount
    | .readPayload =>
        if toRead - 1 = 0 then
          readIncr slaveID functionCode rest .crc (data ++ [b]) (toRead - 1) crcCount
        else
          readIncr slaveID functionCode rest .readPayload (data ++ [b]) (toRead - 1) crcCount
    | .crc =>
        if crcCount + 1 = 2 then
          .ok (data ++ [b])
        else
          readIncr slaveID functionCode rest .crc (data ++ [b]) toRead (crcCount + 1)

/-- Entry point of `readIncrementally`: start in the slave-id state with an
empty buffer (the `r == nil` reader check has no byte-level counterpart). -/
def readIncrementally (slaveID functionCode : Nat) (stream : List Nat) :
    Except RtuReadError (List Nat) :=
  readIncr slaveID functionCode stream .slaveID [] 0 0

-- sanity: exception reply, 5-byte frame
example : readIncrementally 17 3 [17, 131, 2, 192, 241] = .ok [17, 131, 2, 192, 241] := rfl

-- sanity: read response with byte count 2
example : readIncrementally 17 3 [17, 3, 2, 0, 5, 1, 2] = .ok [17, 3, 2, 0, 5, 1, 2] := rfl

/-- `rtuSerialTransporter.charDuration` in microseconds:
`11000000 / BaudRate` with Go integer (floor) division.  A non-positive
baud rate panics in Go (division by zero is impossible there since the
caller always configures a rate); the model is stated for `Nat`. -/
def charDurationMicros (baudRate : Nat) : Nat :=
  11000000 / baudRate

/-- `rtuSerialTransporter.frameDelay` in microseconds: 1750 when the baud
rate is non-positive (`= 0` for `Nat`) or above 19200, else
`38500000 / BaudRate` with Go integer (floor) division. -/
def frameDelayMicros (baudRate : Nat) : Nat :=
  if baudRate = 0 ∨ 19200 < baudRate then 1750
  else 38500000 / baudRate

/-! ## ASCII, from `asciiclient.go` -/

/-- `hexTable = "0123456789ABCDEF"` as character codes. -/
def hexTable : List Nat :=
  [48, 49, 50, 51, 52, 53, 54, 55, 56, 57, 65, 66, 67, 68, 69, 70]

/-- `writeHex` for one byte: the characters `hexTable[v>>4]` and
`hexTable[v&0x0F]`. -/
def writeHexByte (v : Nat) : List Nat :=
  [hexTable.getD (v / 16) 0, hexTable.getD (v % 16) 0]

/-- Go's `encoding/hex` digit decoder: accepts `0-9`, `a-f`, `A-F`. -/
def fromHexChar (c : Nat) : Option Nat :=
  if 48 ≤ c ∧ c ≤ 57 then some (c - 48)
  else if 97 ≤ c ∧ c ≤ 102 then some (c - 97 + 10)
  else if 65 ≤ c ∧ c ≤ 70 then some (c - 65 + 10)
  else none

/-- `readHex`: decodes the first two characters of `data` as one hex byte. -/
def readHex (data : List Nat) : Except String Nat :=
  match fromHexChar (data.getD 0 0), fromHexChar (data.getD 1 0) with
  | some hi, some lo => .ok (hi * 16 + lo)
  | _, _ => .error "encoding hex invalid byte"

/-- Go's `hex.Decode` over a region: decode character pairs, fail on an
invalid digit or an odd-length region. -/
def hexDecodeList : List Nat → Except String (List Nat)
  | [] => .ok []
  | a :: b :: rest =>
    match fromHexChar a, fromHexChar b with
    | some hi, some lo =>
        match hexDecodeList rest with
        | .ok tail => .ok ((hi * 16 + lo) :: tail)
        | .error e => .error e
    | _, _ => .error "encoding hex invalid byte"
  | [_] => .error "encoding hex odd length hex string"

/-- Modelled from the spec: the LRC accumulator `sum = (sum + byte) mod 256`
(`lrc.go` is not under `src/`; `asciiclient.go` only calls `reset`,
`pushByte`, `pushBytes` and `value`). -/
def lrcSum (bytes : List Nat) : Nat :=
  bytes.foldl (fun acc b => (acc + b) % 256) 0

/-- Modelled from the spec: the LRC value is the two's complement
`(-sum) mod 256` of the running sum. -/
def lrcValue (bytes : List Nat) : Nat :=
  (256 - lrcSum bytes) % 256

-- sanity: the spec's LRC test vector
example : lrcValue [0x01, 0x03, 0x01, 0x0A] = 0xF1 := by decide

/-- `asciiPackager.Encode`: start char `:` (0x3A), hex of slave id and
function code, hex of the data, hex of the LRC over slave id, function code
and data, then CR LF. -/
def asciiEncode (slaveID : Nat) (pdu : ProtocolDataUnit) : List Nat :=
  58 :: (writeHexByte slaveID ++ writeHexByte pdu.FunctionCode
    ++ (pdu.Data.map writeHexByte).flatten
    ++ writeHexByte (lrcValue (slaveID :: pdu.FunctionCode :: pdu.Data))
    ++ [13, 10])

/-- `asciiPackager.Decode`: hex-decode slave id at offset 1 and function
code at offset 3, hex-decode the data region `adu[5:len-4]`, read the LRC
at `len-4` and compare it with the LRC over address, function code and
data. -/
def asciiDecode (adu : List Nat) : Except String ProtocolDataUnit :=
  match readHex (adu.drop 1) with
  | .error e => .error e
  | .ok address =>
    match readHex (adu.drop 3) with
    | .error e => .error e
    | .ok functionCode =>
      let dataEnd := adu.length - 4
      match hexDecodeList ((adu.drop 5).take (dataEnd - 5)) with
      | .error e => .error e
      | .ok data =>
        match readHex (adu.drop dataEnd) with
        | .error e => .error e
        | .ok lrcVal =>
          if lrcVal ≠ lrcValue (address :: functionCode :: data) then
            .error "modbus: response lrc does not match expected"
          else
            .ok { FunctionCode := functionCode, Data := data }

-- sanity: spec seed tests 3 and 4
example : asciiEncode 17 ⟨3, [0, 107, 0, 3]⟩ =
    [58, 49, 49, 48, 51, 48, 48, 54, 66, 48, 48, 48, 51, 55, 69, 13, 10] := by decide

example : asciiDecode [58, 70, 55, 48, 51, 49, 51, 56, 57, 48, 48, 48, 65, 54, 48, 13, 10] =
    .ok ⟨3, [0x13, 0x89, 0x00, 0x0A]⟩ := rfl

/-! ## Client façade, from `client.go` -/

/-- The error variants the façade distinguishes: the Modbus exception
`*Error` (function code plus exception code), the empty-response error, the
`DataSizeError` (expected and actual byte counts, Go `int`s), and the
generic `fmt.Errorf` validation errors. -/
inductive ClientError where
  | modbusError (functionCode exceptionCode : Nat)
  | emptyResponse
  | dataSizeError (expectedBytes actualBytes : Int)
  | valueError
deriving DecidableEq, Repr

/-- `responseError`: builds the `*Error` with the response's function code;
the exception code is the first data byte when there is one, 0 otherwise. -/
def responseError (response : ProtocolDataUnit) : ClientError :=
  .modbusError response.FunctionCode (response.Data.getD 0 0)

/-- The response post-processing of `client.send` (after `Verify` and
`Decode` succeeded): a response function code different from the request's
is surfaced via `responseError`; an empty data section is the
empty-response error; otherwise the response is returned. -/
def sendCheck (requestFunctionCode : Nat) (response : ProtocolDataUnit) :
    Except ClientError ProtocolDataUnit :=
  if response.FunctionCode ≠ requestFunctionCode then
    .error (responseError response)
  else if response.Data.length = 0 then
    .error .emptyResponse
  else
    .ok response

/-- The byte-count handling shared by `ReadCoils` (`client.go` lines 75-84):
`count := int(data[0])`, `length := len(data) - 1`; on `count ≠ length` a
`DataSizeError` is produced, and the result slice `data[1:count+1]` is
still returned unless `length < count`. -/
def readCoilsProcess (data : List Nat) : Option (List Nat) × Option ClientError :=
  let count : Int := data.getD 0 0
  let length : Int := (data.length : Int) - 1
  if count ≠ length then
    if length < count then
      (none, some (.dataSizeError count length))
    else
      (some ((data.drop 1).take count.toNat), some (.dataSizeError count length))
  else
    (some ((data.drop 1).take count.toNat), none)

/-- The identical byte-count handling of `ReadDiscreteInputs`
(`client.go` lines 111-120). -/
def readDiscreteInputsProcess (data : List Nat) : Option (List Nat) × Option ClientError :=
  let count : Int := data.getD 0 0
  let length : Int := (data.length : Int) - 1
  if count ≠ length then
    if length < count then
      (none, some (.dataSizeError count length))
    else
      (some ((data.drop 1).take count.toNat), some (.dataSizeError count length))
  else
    (some ((data.drop 1).take count.toNat), none)

/-- The identical byte-count handling of `ReadWriteMultipleRegisters`
(`client.go` lines 454-463). -/
def readWriteMultipleRegistersProcess (data : List Nat) :
    Option (List Nat) × Option ClientError :=
  let count : Int := data.getD 0 0
  let length : Int := (data.length : Int) - 1
  if count ≠ length then
    if length < count then
      (none, some (.dataSizeError count length))
    else
      (some ((data.drop 1).take count.toNat), some (.dataSizeError count length))
  else
    (some ((data.drop 1).take count.toNat), none)

/-! ## Theorems -/

/-- C5: successive `Encode` calls on one MBAP `tcpPackager` produce
strictly increasing transaction ids modulo 2^16: the tx id at bytes 0..1 of
the second ADU equals the first ADU's tx id plus one modulo 2^16. -/
theorem tcp_txid_monotone (p : tcpPackager) (pdu1 pdu2 : ProtocolDataUnit) :
    beUint16 (tcpEncode (tcpEncode p pdu1).1 pdu2).2 =
      (beUint16 (tcpEncode p pdu1).2 + 1) % 65536 := by
  simp only [tcpEncode, beUint16, putUint16, List.cons_append, List.nil_append,
    List.getD_cons_zero, List.getD_cons_succ]
  omega

/-- C9: for every ADU produced by the MBAP packager's `Encode` from a PDU
(payload at most 252 bytes, per the data model), the big-endian 16-bit
length field at bytes 4..5 equals the frame length minus 6, which is
`2 + |data|`. -/
theorem tcp_length_field (p : tcpPackager) (pdu : ProtocolDataUnit)
    (h : pdu.Data.length ≤ 252) :
    beUint16 ((tcpEncode p pdu).2.drop 4) = (tcpEncode p pdu).2.length - 6 ∧
    beUint16 ((tcpEncode p pdu).2.drop 4) = 2 + pdu.Data.length := by
  simp only [tcpEncode, beUint16, putUint16, List.cons_append, List.nil_append,
    List.drop_succ_cons, List.drop_zero, List.getD_cons_zero, List.getD_cons_succ,
    List.length_cons, List.length_append]
  omega

/-- C9 witness. -/
theorem tcp_length_field_witness :
    beUint16 ((tcpEncode ⟨0, 0⟩ ⟨3, [0, 4, 0, 3]⟩).2.drop 4) =
        (tcpEncode ⟨0, 0⟩ ⟨3, [0, 4, 0, 3]⟩).2.length - 6 ∧
    beUint16 ((tcpEncode ⟨0, 0⟩ ⟨3, [0, 4, 0, 3]⟩).2.drop 4) = 2 + 4 :=
  tcp_length_field ⟨0, 0⟩ ⟨3, [0, 4, 0, 3]⟩ (by decide)

/-- C8 counterexample: at baud rate 19200 the code's frame delay is
`38500000 / 19200 = 2005` microseconds, not the claimed
`⌈35000000 / 19200⌉ = 1823` microseconds. -/
theorem frame_delay_claim_false :
    frameDelayMicros 19200 = 2005 ∧ (35000000 + 19200 - 1) / 19200 = 1823 ∧
      (2005 : Nat) ≠ 1823 := by decide

/-- C8 (amended): for every baud rate `B` with `0 < B ≤ 19200` the frame
delay (T3.5) is `⌊38500000 / B⌋` microseconds (3.5 characters of 11 bits at
floor division), for `B > 19200` it is the fixed 1750 microseconds, and the
per-character duration is `⌊11000000 / B⌋` microseconds. -/
theorem rtu_timing (B : Nat) (hB : 0 < B) :
    (B ≤ 19200 → frameDelayMicros B = 38500000 / B) ∧
    (19200 < B → frameDelayMicros B = 1750) ∧
    charDurationMicros B = 11000000 / B := by
  refine ⟨fun h => ?_, fun h => ?_, rfl⟩
  · simp only [frameDelayMicros, if_neg (by omega : ¬(B = 0 ∨ 19200 < B))]
  · simp only [frameDelayMicros, if_pos (Or.inr h)]

/-- C8 witness. -/
theorem rtu_timing_witness :
    (9600 ≤ 19200 → frameDelayMicros 9600 = 38500000 / 9600) ∧
    (19200 < 9600 → frameDelayMicros 9600 = 1750) ∧
    charDurationMicros 9600 = 11000000 / 9600 :=
  rtu_timing 9600 (by decide)

/-- C7: in the `ReadLength` state the RTU incremental parser returns the
distinct `InvalidLengthError` carrying the byte-count byte exactly when it
is 0 or greater than `rtuMaxSize - 5 = 251`, and for byte counts 1 through
251 it accepts the byte and proceeds to read that many payload bytes. -/
theorem rtu_read_length_validation (s fc b : Nat) (rest data : List Nat) (t c : Nat) :
    ((b = 0 ∨ 251 < b) →
      readIncr s fc (b :: rest) .readLength data t c = .error (.invalidLength b)) ∧
    (1 ≤ b → b ≤ 251 →
      readIncr s fc (b :: rest) .readLength data t c =
        readIncr s fc rest .readPayload (data ++ [b]) b c) := by
  constructor
  · intro h
    simp only [readIncr, if_pos (by omega : 251 < b ∨ b = 0)]
  · intro h1 h2
    simp only [readIncr, if_neg (by omega : ¬(251 < b ∨ b = 0))]

/-- C7 witness. -/
theorem rtu_read_length_validation_witness :
    readIncr 17 3 [252, 0] .readLength [17, 3] 0 0 = .error (.invalidLength 252) ∧
    readIncr 17 3 [2, 0, 5, 1, 2] .readLength [17, 3] 0 0 =
      readIncr 17 3 [0, 5, 1, 2] .readPayload [17, 3, 2] 2 0 :=
  ⟨(rtu_read_length_validation 17 3 252 [0] [17, 3] 0 0).1 (by decide),
   (rtu_read_length_validation 17 3 2 [0, 5, 1, 2] [17, 3] 0 0).2 (by decide) (by decide)⟩

/-- C4: for a 7-byte MBAP response header whose 16-bit length field at
offset 4 is 0 or greater than `260 - 6 = 254`, `processResponse` drains the
pending stream (one non-blocking read of up to 260 bytes) and returns the
distinct `ErrTCPHeaderLength` error having read no body bytes; otherwise
(the body being available) it reads `length - 1` further bytes and returns
the completed frame. -/
theorem tcp_process_response (header stream : List Nat) :
    ((beUint16 (header.drop 4) = 0 ∨ 254 < beUint16 (header.drop 4)) →
      processResponse header stream =
        ⟨.error (.headerLength (beUint16 (header.drop 4))), 0, stream.drop 260⟩) ∧
    (0 < beUint16 (header.drop 4) → beUint16 (header.drop 4) ≤ 254 →
      beUint16 (header.drop 4) - 1 ≤ stream.length →
      processResponse header stream =
        ⟨.ok (header.take 7 ++ stream.take (beUint16 (header.drop 4) - 1)),
          beUint16 (header.drop 4) - 1,
          stream.drop (beUint16 (header.drop 4) - 1)⟩) := by
  constructor
  · intro h
    rcases h with h | h
    · simp only [processResponse, if_pos (by omega : beUint16 (header.drop 4) ≤ 0)]
    · simp only [processResponse, if_neg (by omega : ¬beUint16 (header.drop 4) ≤ 0),
        if_pos h]
  · intro h1 h2 h3
    simp only [processResponse, if_neg (by omega : ¬beUint16 (header.drop 4) ≤ 0),
      if_neg (by omega : ¬254 < beUint16 (header.drop 4)),
      if_neg (by omega : ¬stream.length < beUint16 (header.drop 4) - 1)]

/-- C4 witness. -/
theorem tcp_process_response_witness :
    ((beUint16 ([0, 1, 0, 0, 1, 0, 17].drop 4) = 0 ∨
        254 < beUint16 ([0, 1, 0, 0, 1, 0, 17].drop 4)) →
      processResponse [0, 1, 0, 0, 1, 0, 17] [9, 9] =
        ⟨.error (.headerLength (beUint16 ([0, 1, 0, 0, 1, 0, 17].drop 4))), 0,
          ([9, 9] : List Nat).drop 260⟩) ∧
    (0 < beUint16 ([0, 1, 0, 0, 1, 0, 17].drop 4) →
      beUint16 ([0, 1, 0, 0, 1, 0, 17].drop 4) ≤ 254 →
      beUint16 ([0, 1, 0, 0, 1, 0, 17].drop 4) - 1 ≤ ([9, 9] : List Nat).length →
      processResponse [0, 1, 0, 0, 1, 0, 17] [9, 9] =
        ⟨.ok ([0, 1, 0, 0, 1, 0, 17].take 7 ++
            ([9, 9] : List Nat).take (beUint16 ([0, 1, 0, 0, 1, 0, 17].drop 4) - 1)),
          beUint16 ([0, 1, 0, 0, 1, 0, 17].drop 4) - 1,
          ([9, 9] : List Nat).drop (beUint16 ([0, 1, 0, 0, 1, 0, 17].drop 4) - 1)⟩) :=
  tcp_process_response [0, 1, 0, 0, 1, 0, 17] [9, 9]

/-- Bytes below 128 gain exactly 128 when or-ed with 0x80. -/
theorem lor_128_eq_add : ∀ fc < 128, fc ||| 128 = fc + 128 := by decide

/-- C3: when the decoded response's function code is the request's function
code (a plain code below 0x80, as all façade requests are) with the high
bit 0x80 set, `client.send` surfaces the distinct Modbus exception variant
`*Error` whose exception code is the first response data byte (0 when the
data is empty), not a framing fault. -/
theorem send_modbus_exception (fc : Nat) (response : ProtocolDataUnit)
    (hfc : fc < 128) (hresp : response.FunctionCode = fc ||| 128) :
    sendCheck fc response =
      .error (.modbusError (fc ||| 128) (response.Data.getD 0 0)) := by
  have hadd := lor_128_eq_add fc hfc
  simp only [sendCheck, responseError, hresp, hadd, ne_eq,
    if_pos (by omega : ¬fc + 128 = fc)]

/-- C3 witness. -/
theorem send_modbus_exception_witness :
    sendCheck 3 ⟨3 ||| 128, [2]⟩ =
      .error (.modbusError (3 ||| 128) ((([2] : List Nat)).getD 0 0)) :=
  send_modbus_exception 3 ⟨3 ||| 128, [2]⟩ (by decide) rfl

/-- C10: for `ReadCoils`, `ReadDiscreteInputs` and
`ReadWriteMultipleRegisters` responses (non-empty data, as `client.send`
guarantees), when the leading byte-count byte declares fewer bytes than are
present (`count < |data| - 1`) the façade returns both the first `count`
data bytes and a `DataSizeError`; only when fewer data bytes than declared
are present (`|data| - 1 < count`) is the result `none` alongside the
error. -/
theorem read_oversized_payload (data : List Nat) (h : data ≠ []) :
    (data.getD 0 0 + 1 < data.length →
      readCoilsProcess data =
          (some ((data.drop 1).take (data.getD 0 0)),
            some (.dataSizeError (data.getD 0 0) ((data.length : Int) - 1))) ∧
      readDiscreteInputsProcess data =
          (some ((data.drop 1).take (data.getD 0 0)),
            some (.dataSizeError (data.getD 0 0) ((data.length : Int) - 1))) ∧
      readWriteMultipleRegistersProcess data =
          (some ((data.drop 1).take (data.getD 0 0)),
            some (.dataSizeError (data.getD 0 0) ((data.length : Int) - 1)))) ∧
    (data.length < data.getD 0 0 + 1 →
      readCoilsProcess data =
          (none, some (.dataSizeError (data.getD 0 0) ((data.length : Int) - 1))) ∧
      readDiscreteInputsProcess data =
          (none, some (.dataSizeError (data.getD 0 0) ((data.length : Int) - 1))) ∧
      readWriteMultipleRegistersProcess data =
          (none, some (.dataSizeError (data.getD 0 0) ((data.length : Int) - 1)))) := by
  have hlen : 1 ≤ data.length := by
    cases data with
    | nil => exact absurd rfl h
    | cons a l => simp
  constructor
  · intro hcount
    have hne : ¬((data.getD 0 0 : Int) = (data.length : Int) - 1) := by
      omega
    have hlt : ¬((data.length : Int) - 1 < (data.getD 0 0 : Int)) := by
      omega
    refine ⟨?_, ?_, ?_⟩ <;>
      simp only [readCoilsProcess, readDiscreteInputsProcess,
        readWriteMultipleRegistersProcess, if_pos hne, if_neg hlt, ne_eq,
        Int.toNat_natCast]
  · intro hcount
    have hne : ¬((data.getD 0 0 : Int) = (data.length : Int) - 1) := by
      omega
    have hlt : ((data.length : Int) - 1 < (data.getD 0 0 : Int)) := by
      omega
    refine ⟨?_, ?_, ?_⟩ <;>
      simp only [readCoilsProcess, readDiscreteInputsProcess,
        readWriteMultipleRegistersProcess, if_pos hne, if_pos hlt, ne_eq]

/-- C10 witness. -/
theorem read_oversized_payload_witness :
    (readCoilsProcess [1, 5, 6] =
        (some [5], some (.dataSizeError 1 2)) ∧
      readDiscreteInputsProcess [1, 5, 6] =
        (some [5], some (.dataSizeError 1 2)) ∧
      readWriteMultipleRegistersProcess [1, 5, 6] =
        (some [5], some (.dataSizeError 1 2))) ∧
    (readCoilsProcess [3, 5] =
        (none, some (.dataSizeError 3 1)) ∧
      readDiscreteInputsProcess [3, 5] =
        (none, some (.dataSizeError 3 1)) ∧
      readWriteMultipleRegistersProcess [3, 5] =
        (none, some (.dataSizeError 3 1))) :=
  ⟨(read_oversized_payload [1, 5, 6] (by decide)).1 (by decide),
   (read_oversized_payload [3, 5] (by decide)).2 (by decide)⟩

/-- A transaction-id mismatch raised by `verify` carries `got` equal to the
response's tx id, `expected` equal to the request's tx id, and the two
differ. -/
theorem verify_txMismatch_fields (req res : List Nat) (g e : Nat)
    (h : verify req res = .error (.txMismatch g e)) :
    g = beUint16 res ∧ e = beUint16 req ∧ g ≠ e := by
  by_cases h1 : beUint16 res = beUint16 req
  · simp only [verify, ne_eq, h1, not_true_eq_false, if_false, if_neg] at h
    split at h
    · exact absurd (Except.error.inj h) (by simp)
    · split at h
      · exact absurd (Except.error.inj h) (by simp)
      · exact absurd h (by simp)
  · simp only [verify, ne_eq, h1, not_false_eq_true, if_true, Except.error.injEq,
      TCPError.txMismatch.injEq] at h
    exact ⟨h.1.symm, h.2.symm, by omega⟩

/-- C1: for every transaction-id mismatch error (`got = g`, `expected = e`)
raised while `readResponse` runs before the recovery deadline — so that
`e` equals `lastAttempted`, which `Send` records from the same request
bytes `verify` compares against — the loop re-reads the next inbound frame
on the same connection without resending exactly when `g` lies in the
window `(lastSuccessful, lastAttempted]` (in the wrap case
`lastAttempted < lastSuccessful` the window
`(lastSuccessful, 0xFFFF] ∪ [0, lastAttempted)`); outside the window, with
`ProtocolRecoveryTimeout > 0`, it retries with a resend instead. -/
theorem tx_mismatch_window (req res : List Nat) (g e lastSuccessful lastAttempted : Nat)
    (linkRecoveryPos protocolRecoveryPos : Bool)
    (hv : verify req res = .error (.txMismatch g e))
    (hB : lastAttempted = beUint16 req) :
    (classifyReadError (.txMismatch g e) false linkRecoveryPos protocolRecoveryPos
        lastSuccessful lastAttempted = .rereadSameConn ↔
      specTxWindow lastSuccessful lastAttempted g = true) ∧
    (specTxWindow lastSuccessful lastAttempted g = false → protocolRecoveryPos = true →
      classifyReadError (.txMismatch g e) false linkRecoveryPos protocolRecoveryPos
        lastSuccessful lastAttempted = .returnRetry) := by
  obtain ⟨hg, he, hne⟩ := verify_txMismatch_fields req res g e hv
  have hgB : g ≠ lastAttempted := by rw [hB, ← he]; exact hne
  constructor
  · by_cases hc : (lastSuccessful < g ∧ g < lastAttempted) ∨
        (lastAttempted < lastSuccessful ∧ (lastSuccessful < g ∨ g < lastAttempted))
    · simp only [classifyReadError, Bool.false_eq_true, if_false, if_neg, if_pos hc,
        specTxWindow, true_iff]
      split
      · simp only [Bool.or_eq_true, decide_eq_true_eq]
        omega
      · simp only [Bool.and_eq_true, decide_eq_true_eq]
        omega
    · simp only [classifyReadError, Bool.false_eq_true, if_false, if_neg, if_neg hc,
        specTxWindow]
      constructor
      · intro habs
        split at habs <;> simp at habs
      · intro hwin
        exfalso
        apply hc
        split at hwin <;>
          simp only [Bool.or_eq_true, Bool.and_eq_true, decide_eq_true_eq] at hwin <;>
          omega
  · intro hwin hproto
    have hc : ¬((lastSuccessful < g ∧ g < lastAttempted) ∨
        (lastAttempted < lastSuccessful ∧ (lastSuccessful < g ∨ g < lastAttempted))) := by
      intro habs
      rw [specTxWindow] at hwin
      split at hwin <;>
        simp only [Bool.or_eq_false_iff, Bool.and_eq_false_iff, decide_eq_false_iff_not,
          decide_eq_true_eq] at hwin <;>
        omega
    simp only [classifyReadError, Bool.false_eq_true, if_false, if_neg, if_neg hc, hproto,
      if_true, if_pos]

/-- One CRC shift round stays below 2^16. -/
theorem crcRound_lt (v : Nat) (h : v < 65536) : crcRound v < 65536 := by
  unfold crcRound
  split
  · have h1 : v / 2 < 2 ^ 16 := by omega
    have h2 : (0xA001 : Nat) < 2 ^ 16 := by norm_num
    have h3 := Nat.xor_lt_two_pow h1 h2
    norm_num at h3
    exact h3
  · omega

/-- Iterated CRC shift rounds stay below 2^16. -/
theorem crcRounds_lt : ∀ (k v : Nat), v < 65536 → crcRounds k v < 65536
  | 0, _, h => h
  | k + 1, v, h => crcRounds_lt k (crcRound v) (crcRound_lt v h)

/-- The CRC accumulator folded over any byte list stays below 2^16. -/
theorem crc16_foldl_lt : ∀ (l : List Nat) (acc : Nat), acc < 65536 →
    l.foldl (fun acc b => crcRounds 8 (acc ^^^ (b % 256))) acc < 65536
  | [], _, h => h
  | b :: rest, acc, h => by
      simp only [List.foldl_cons]
      refine crc16_foldl_lt rest _ (crcRounds_lt 8 _ ?_)
      have h1 : acc < 2 ^ 16 := by omega
      have h2 : b % 256 < 2 ^ 16 := by have := Nat.mod_lt b (by omega : 0 < 256); omega
      have h3 := Nat.xor_lt_two_pow h1 h2
      norm_num at h3
      exact h3

/-- The CRC-16 value fits in 16 bits. -/
theorem crc16_lt (l : List Nat) : crc16 l < 65536 :=
  crc16_foldl_lt l 0xFFFF (by norm_num)

/-- RTU round trip: decoding an encoded RTU frame restores the PDU. -/
theorem rtu_roundtrip (s fc : Nat) (data : List Nat) (hlen : data.length ≤ 252) :
    rtuEncode s ⟨fc, data⟩ >>= rtuDecode = .ok ⟨fc, data⟩ := by
  have hcrc : crc16 (s :: fc :: data) < 65536 := crc16_lt _
  have hif : ¬(256 < data.length + 4) := by omega
  simp only [rtuEncode, hif, if_false, List.cons_append, Bind.bind, Except.bind]
  set c := crc16 (s :: fc :: data) with hc
  have htake : (data ++ [c % 256, c / 256 % 256]).take data.length = data :=
    List.take_left data _
  have hgx : (data ++ [c % 256, c / 256 % 256]).getD data.length 0 = c % 256 := by
    rw [List.getD_append_right data _ 0 data.length le_rfl]
    simp
  have hgy : (data ++ [c % 256, c / 256 % 256]).getD (data.length + 1) 0 = c / 256 % 256 := by
    rw [List.getD_append_right data _ 0 (data.length + 1) (by omega)]
    simp
  simp only [rtuDecode, List.length_cons, List.length_append, List.length_cons,
    List.length_nil]
  have hlen2 : data.length + 2 + 1 + 1 - 2 = data.length + 2 := by omega
  have hlen3 : data.length + 2 + 1 + 1 - 1 = data.length + 3 := by omega
  have hlen4 : data.length + 2 + 1 + 1 - 4 = data.length := by omega
  rw [hlen2, hlen3, hlen4]
  simp only [List.take_succ_cons, List.getD_cons_succ, List.getD_cons_zero,
    List.drop_succ_cons, List.drop_zero, htake, hgx, hgy]
  rw [if_neg (by omega : ¬(c / 256 % 256 * 256 + c % 256 ≠ c))]

/-- MBAP round trip: decoding an encoded MBAP frame restores the PDU. -/
theorem tcp_roundtrip (p : tcpPackager) (fc : Nat) (data : List Nat)
    (hlen : data.length ≤ 252) :
    tcpDecode (tcpEncode p ⟨fc, data⟩).2 = .ok ⟨fc, data⟩ := by
  simp only [tcpEncode, putUint16, List.cons_append, List.nil_append]
  simp only [tcpDecode, beUint16]
  simp only [List.drop_succ_cons, List.drop_zero, List.getD_cons_succ,
    List.getD_cons_zero, List.length_cons]
  rw [if_neg (by omega)]
  rw [if_neg (by omega)]

/-- Each hex-table character decodes back to its index. -/
theorem hexTable_roundtrip : ∀ n < 16, fromHexChar (hexTable.getD n 0) = some n := by decide

/-- `readHex` on the two `writeHex` characters of a byte restores it. -/
theorem readHex_digits (b : Nat) (hb : b < 256) (rest : List Nat) :
    readHex (hexTable.getD (b / 16) 0 :: hexTable.getD (b % 16) 0 :: rest) = .ok b := by
  have h1 := hexTable_roundtrip (b / 16) (by omega)
  have h2 := hexTable_roundtrip (b % 16) (by omega)
  simp only [readHex, List.getD_cons_zero, List.getD_cons_succ, h1, h2]
  have hb16 : b / 16 * 16 + b % 16 = b := by omega
  rw [hb16]

/-- The hex encoding of a byte list is twice as long. -/
theorem flatten_writeHex_length (data : List Nat) :
    ((data.map writeHexByte).flatten).length = 2 * data.length := by
  induction data with
  | nil => simp
  | cons b rest ih =>
      simp only [List.map_cons, List.flatten_cons, List.length_append, ih,
        writeHexByte, List.length_cons, List.length_nil, List.length_cons]
      omega

/-- `hexDecodeList` inverts the `writeHex` encoding of a byte list. -/
theorem hexDecodeList_flatten (data : List Nat) (h : ∀ b ∈ data, b < 256) :
    hexDecodeList ((data.map writeHexByte).flatten) = .ok data := by
  induction data with
  | nil => rfl
  | cons b rest ih =>
      have hb : b < 256 := h b (List.mem_cons_self b rest)
      have h1 := hexTable_roundtrip (b / 16) (by omega)
      have h2 := hexTable_roundtrip (b % 16) (by omega)
      have hb16 : b / 16 * 16 + b % 16 = b := by omega
      have ih2 := ih (fun x hx => h x (List.mem_cons_of_mem b hx))
      simp only [List.map_cons, List.flatten_cons, writeHexByte, List.cons_append,
        List.nil_append, hexDecodeList, h1, h2]
      simp [ih2, hb16]

/-- The LRC value is one byte. -/
theorem lrcValue_lt (l : List Nat) : lrcValue l < 256 :=
  Nat.mod_lt _ (by omega)

/-- ASCII round trip: decoding an encoded ASCII frame restores the PDU. -/
theorem ascii_roundtrip (s fc : Nat) (data : List Nat)
    (hs : s < 256) (hfc : fc < 256) (hdata : ∀ b ∈ data, b < 256) :
    asciiDecode (asciiEncode s ⟨fc, data⟩) = .ok ⟨fc, data⟩ := by
  have hl : lrcValue (s :: fc :: data) < 256 := lrcValue_lt _
  have hFlen : ((data.map writeHexByte).flatten).length = 2 * data.length :=
    flatten_writeHex_length data
  simp only [asciiEncode, writeHexByte, List.cons_append, List.nil_append,
    List.append_assoc, asciiDecode]
  simp only [List.drop_succ_cons, List.drop_zero]
  rw [readHex_digits s hs, readHex_digits fc hfc]
  simp only [List.length_cons, List.length_append, hFlen, List.length_cons,
    List.length_nil]
  have e1 : 2 * data.length + (0 + 1 + 1 + 1 + 1) + 1 + 1 + 1 + 1 + 1 - 4 - 5 =
      2 * data.length := by omega
  have e2 : 2 * data.length + (0 + 1 + 1 + 1 + 1) + 1 + 1 + 1 + 1 + 1 - 4 =
      2 * data.length + 5 := by omega
  rw [e1, e2]
  rw [List.take_left' hFlen]
  rw [hexDecodeList_flatten data hdata]
  have hdrop : (58 :: hexTable.getD (s / 16) 0 :: hexTable.getD (s % 16) 0 ::
      hexTable.getD (fc / 16) 0 :: hexTable.getD (fc % 16) 0 ::
      ((List.map writeHexByte data).flatten ++
        [hexTable.getD (lrcValue (s :: fc :: data) / 16) 0,
          hexTable.getD (lrcValue (s :: fc :: data) % 16) 0, 13, 10])).drop
      (2 * data.length + 5) =
      [hexTable.getD (lrcValue (s :: fc :: data) / 16) 0,
        hexTable.getD (lrcValue (s :: fc :: data) % 16) 0, 13, 10] := by
    rw [show (58 :: hexTable.getD (s / 16) 0 :: hexTable.getD (s % 16) 0 ::
        hexTable.getD (fc / 16) 0 :: hexTable.getD (fc % 16) 0 ::
        ((List.map writeHexByte data).flatten ++
          [hexTable.getD (lrcValue (s :: fc :: data) / 16) 0,
            hexTable.getD (lrcValue (s :: fc :: data) % 16) 0, 13, 10]) : List Nat) =
        ((58 :: hexTable.getD (s / 16) 0 :: hexTable.getD (s % 16) 0 ::
          hexTable.getD (fc / 16) 0 :: hexTable.getD (fc % 16) 0 ::
          (List.map writeHexByte data).flatten) ++
          [hexTable.getD (lrcValue (s :: fc :: data) / 16) 0,
            hexTable.getD (lrcValue (s :: fc :: data) % 16) 0, 13, 10]) from by simp]
    refine List.drop_left' ?_
    simp only [List.length_cons, hFlen]
  rw [hdrop]
  rw [readHex_digits (lrcValue (s :: fc :: data)) hl]
  simp

/-- C2: for every framer (MBAP/TCP, RTU, ASCII) and every PDU with a valid
slave id, function code, and data not exceeding the framer's maximum data
length (252 bytes for all three), decoding the encoding of the PDU returns
a PDU whose function code and data equal the original byte-for-byte. -/
theorem encode_decode_roundtrip (tid s fc : Nat) (data : List Nat)
    (hs : s < 256) (hfc : fc < 256) (hdata : ∀ b ∈ data, b < 256)
    (hlen : data.length ≤ 252) :
    tcpDecode (tcpEncode ⟨tid, s⟩ ⟨fc, data⟩).2 = .ok ⟨fc, data⟩ ∧
    (rtuEncode s ⟨fc, data⟩ >>= rtuDecode) = .ok ⟨fc, data⟩ ∧
    asciiDecode (asciiEncode s ⟨fc, data⟩) = .ok ⟨fc, data⟩ :=
  ⟨tcp_roundtrip ⟨tid, s⟩ fc data hlen, rtu_roundtrip s fc data hlen,
    ascii_roundtrip s fc data hs hfc hdata⟩

/-- C2 witness. -/
theorem encode_decode_roundtrip_witness :
    tcpDecode (tcpEncode ⟨0, 17⟩ ⟨3, [0, 107, 0, 3]⟩).2 = .ok ⟨3, [0, 107, 0, 3]⟩ ∧
    (rtuEncode 17 ⟨3, [0, 107, 0, 3]⟩ >>= rtuDecode) = .ok ⟨3, [0, 107, 0, 3]⟩ ∧
    asciiDecode (asciiEncode 17 ⟨3, [0, 107, 0, 3]⟩) = .ok ⟨3, [0, 107, 0, 3]⟩ :=
  encode_decode_roundtrip 0 17 3 [0, 107, 0, 3] (by decide) (by decide)
    (by decide) (by decide)

/-- In the CRC state with no CRC byte yet read, two more bytes finish the
frame. -/
theorem readIncr_crc (s fc c1 c2 : Nat) (data : List Nat) (t : Nat) :
    readIncr s fc [c1, c2] .crc data t 0 = .ok (data ++ [c1, c2]) := by
  simp [readIncr, List.append_assoc]

/-- In the payload state with `toRead` equal to the number of pending
payload bytes (at least one), the parser consumes the payload and the two
CRC bytes and returns the accumulated frame. -/
theorem readIncr_payload (s fc c1 c2 : Nat) : ∀ (payload data : List Nat),
    1 ≤ payload.length →
    readIncr s fc (payload ++ [c1, c2]) .readPayload data payload.length 0 =
      .ok (data ++ payload ++ [c1, c2])
  | [], _, h => absurd h (by simp)
  | [p], data, _ => by
      simp [readIncr, List.append_assoc]
  | p :: q :: qs, data, _ => by
      simp only [List.cons_append, List.length_cons, readIncr]
      rw [if_neg (by omega : ¬(qs.length + 1 + 1 - 1 = 0))]
      rw [show qs.length + 1 + 1 - 1 = qs.length + 1 from by omega]
      rw [show qs.length + 1 - 1 = qs.length from by omega]
      by_cases hqs : qs.length = 0
      · have hq : qs = [] := List.length_eq_zero.mp hqs
        subst hq
        simp [readIncr, readIncr_crc, List.append_assoc]
      · rw [if_neg hqs]
        have ih := readIncr_payload s fc c1 c2 qs (data ++ [p] ++ [q]) (by omega)
        simp only [List.append_eq]
        rw [ih]
        simp [List.append_assoc]

/-- C6: for every supported function code `fc` and slave id `s`, feeding
the RTU incremental parser the byte stream of a valid `fc`-response
addressed to `s` (read-family: byte count 1..251 then that many payload
bytes; write-family: 4 payload bytes; mask-write: 6 payload bytes; each
followed by 2 CRC bytes) yields the full frame, and feeding it a stream
whose second byte is `fc | 0x80` yields exactly the 5-byte ADU slave id,
exception function code, exception code and 2 CRC bytes. -/
theorem rtu_incremental_read (s fc len ec c1 c2 : Nat) (payload : List Nat) :
    ((fc = 0x02 ∨ fc = 0x01 ∨ fc = 0x03 ∨ fc = 0x04 ∨ fc = 0x17 ∨ fc = 0x18) →
      payload.length = len → 1 ≤ len → len ≤ 251 →
      readIncrementally s fc (s :: fc :: len :: (payload ++ [c1, c2])) =
        .ok (s :: fc :: len :: (payload ++ [c1, c2]))) ∧
    ((fc = 0x05 ∨ fc = 0x06 ∨ fc = 0x10 ∨ fc = 0x0F) → payload.length = 4 →
      readIncrementally s fc (s :: fc :: (payload ++ [c1, c2])) =
        .ok (s :: fc :: (payload ++ [c1, c2]))) ∧
    (fc = 0x16 → payload.length = 6 →
      readIncrementally s fc (s :: fc :: (payload ++ [c1, c2])) =
        .ok (s :: fc :: (payload ++ [c1, c2]))) ∧
    ((fc = 0x01 ∨ fc = 0x02 ∨ fc = 0x03 ∨ fc = 0x04 ∨ fc = 0x05 ∨ fc = 0x06 ∨
        fc = 0x0F ∨ fc = 0x10 ∨ fc = 0x16 ∨ fc = 0x17 ∨ fc = 0x18) →
      readIncrementally s fc (s :: (fc + 0x80) :: [ec, c1, c2]) =
        .ok (s :: (fc + 0x80) :: [ec, c1, c2])) := by
  refine ⟨?_, ?_, ?_, ?_⟩
  · intro hfc hplen h1 h251
    subst hplen
    have hpay := readIncr_payload s fc c1 c2 payload [s, fc, payload.length]
      (by omega)
    have hcond : ¬(251 < payload.length ∨ payload = []) := by
      rintro (h | rfl)
      · omega
      · simp at h1
    rcases hfc with rfl | rfl | rfl | rfl | rfl | rfl <;>
    · simp only [readIncrementally, readIncr]
      simp
      rw [if_neg hcond]
      rw [hpay]
      simp
  · intro hfc hplen
    have hpay := readIncr_payload s fc c1 c2 payload [s, fc] (by omega)
    rw [hplen] at hpay
    rcases hfc with rfl | rfl | rfl | rfl <;>
    · simp only [readIncrementally, readIncr]
      simp
      rw [hpay]
      simp
  · intro hfc hplen
    have hpay := readIncr_payload s fc c1 c2 payload [s, fc] (by omega)
    rw [hplen] at hpay
    subst hfc
    simp only [readIncrementally, readIncr]
    simp
    rw [hpay]
    simp
  · intro hfc
    rcases hfc with rfl | rfl | rfl | rfl | rfl | rfl | rfl | rfl | rfl | rfl | rfl <;>
      simp [readIncrementally, readIncr]

/-- C6 witness. -/
theorem rtu_incremental_read_witness :
    readIncrementally 17 3 (17 :: 3 :: 2 :: ([0, 5] ++ [193, 121])) =
      .ok (17 :: 3 :: 2 :: ([0, 5] ++ [193, 121])) ∧
    readIncrementally 17 3 (17 :: (3 + 0x80) :: [2, 192, 241]) =
      .ok (17 :: (3 + 0x80) :: [2, 192, 241]) :=
  ⟨(rtu_incremental_read 17 3 2 0 193 121 [0, 5]).1 (by decide) (by decide)
      (by decide) (by decide),
    (rtu_incremental_read 17 3 2 2 192 241 [0, 5]).2.2.2 (by decide)⟩

/-- C1 witness. -/
theorem tx_mismatch_window_witness :
    (classifyReadError (.txMismatch 5 7) false false true 3 7 = .rereadSameConn ↔
      specTxWindow 3 7 5 = true) ∧
    (specTxWindow 3 7 5 = false → true = true →
      classifyReadError (.txMismatch 5 7) false false true 3 7 = .returnRetry) :=
  tx_mismatch_window [0, 7, 0, 0, 0, 2, 17] [0, 5, 0, 0, 0, 2, 17] 5 7 3 7 false true
    rfl rfl

end Modbus
